import Mathlib

/-!
Verification of the go-gist upload tool (main.go) against its specification.

The `file` package of the repository (LocalFile, New, Exists, Size, Name,
Upload, KB) is not available; its members are modelled from the spec where
needed, as noted on each definition. Filesystem state and the remote gist
service are modelled as explicit oracles passed to the embedded functions.
-/

namespace GoGist

/-- One candidate local file, as built by `file.New(path, dryRun)`.
Modelled from the spec: a LocalFile is a record of the path string and the
dry-run flag, with no mutation after creation. -/
structure LocalFile where
  FilePath : String
  DryRun : Bool
  deriving DecidableEq, Repr

/-- Modelled from the spec: `file.New` constructs a LocalFile from a path
string and the current dry-run flag. -/
def fileNew (path : String) (dryRun : Bool) : LocalFile :=
  { FilePath := path, DryRun := dryRun }

/-- The filesystem as an oracle: whether `Exists` succeeds on a path, and
what `Size` reports for it (in bytes). -/
structure FileSystem where
  pathExists : String → Bool
  sizeOf : String → Nat

/-- Modelled from the spec: `file.KB` is one kilobyte. -/
def KB : Nat := 1024

/-- `maxFilesize = file.KB * 50` (main.go line 25): the 50 KB ceiling. -/
def maxFilesize : Nat := KB * 50

/-- Log messages the program emits, abstracted by constructor. -/
inductive LogEntry where
  /-- "[WARNING] %s not found, excluding from upload" -/
  | warnNotFound (path : String)
  /-- "[WARNING] excluding %s from upload. File exceeds ..KB: .. (..KB)" -/
  | warnTooLarge (path : String) (size : Nat)
  /-- "%v" printed when Name() fails in the drain loop -/
  | errNameFailure (msg : String)
  /-- "[ERROR] create gist failed (%s)" -/
  | errCreateGist (nm : String)
  deriving DecidableEq, Repr

/-- The filtering loop of `getFilesToUpload` (main.go lines 68-88): per input
path, build the LocalFile, skip it with a warning if the existence check
fails, skip it with a warning if (absent the override) its size exceeds the
ceiling, otherwise append it. Returns the kept files and the warnings. -/
def selectFiles (fs : FileSystem) (dryRun allowLargeFiles : Bool) :
    List String → List LocalFile × List LogEntry
  | [] => ([], [])
  | f :: rest =>
    let localFile := fileNew f dryRun
    if fs.pathExists localFile.FilePath = false then
      let r := selectFiles fs dryRun allowLargeFiles rest
      (r.1, LogEntry.warnNotFound localFile.FilePath :: r.2)
    else if allowLargeFiles = false ∧ maxFilesize < fs.sizeOf localFile.FilePath then
      let r := selectFiles fs dryRun allowLargeFiles rest
      (r.1, LogEntry.warnTooLarge localFile.FilePath (fs.sizeOf localFile.FilePath) :: r.2)
    else
      let r := selectFiles fs dryRun allowLargeFiles rest
      (localFile :: r.1, r.2)

/-- `getFilesToUpload` (main.go lines 65-95): the filtering loop followed by
the empty-result check returning the "go-gist: no files to upload" error.
Result paired with the warnings logged. -/
def getFilesToUpload (fs : FileSystem) (dryRun allowLargeFiles : Bool)
    (files : List String) : Except String (List LocalFile) × List LogEntry :=
  let r := selectFiles fs dryRun allowLargeFiles files
  if r.1.length = 0 then
    (Except.error "go-gist: no files to upload", r.2)
  else
    (Except.ok r.1, r.2)

/-- Outcome of `checkForArgumentErrors` (main.go lines 45-62): either a
`log.Fatal` with its message, or control returns to main. -/
inductive ArgCheck where
  | fatal (msg : String)
  | ok
  deriving DecidableEq, Repr

/-- `checkForArgumentErrors` (main.go lines 45-62), with `flag.NArg()`
passed in as `nArg`. -/
def checkForArgumentErrors (upload dryRun : Bool) (nArg : Nat) : ArgCheck :=
  if upload = false ∧ dryRun = false then
    ArgCheck.fatal "Nothing to do"
  else if upload = true ∧ dryRun = true then
    ArgCheck.fatal "Can't upload and dryrun at the same time"
  else if upload = true ∧ nArg = 0 then
    ArgCheck.fatal "Selected -upload with no files"
  else
    ArgCheck.ok

/-- How a process run ends: the `init` token check (main.go lines 37-41),
a fatal from argument validation, a fatal from the selector, or reaching
`processFiles` with the validated list. -/
inductive RunOutcome where
  | fatalMissingToken (msg : String)
  | fatalArgs (msg : String)
  | fatalSelect (msg : String)
  | dispatched (filesToUpload : List LocalFile)
  deriving DecidableEq, Repr

/-- The control flow of `init` + `main` (main.go lines 28-42 and 142-161)
up to the invocation of `processFiles`: the token check in `init` runs
first, then `checkForArgumentErrors`, then `getFilesToUpload`; a
`log.Fatal` at any stage ends the run. `token` is the value of
`os.Getenv("GITHUB_API_TOKEN")` (empty both when the variable is absent
and when it is set to the empty string). -/
def runMain (token : String) (upload dryRun allowLargeFiles : Bool)
    (args : List String) (fs : FileSystem) : RunOutcome :=
  if token = "" then
    RunOutcome.fatalMissingToken
      "Environment variable required but missing: GITHUB_API_TOKEN"
  else
    match checkForArgumentErrors upload dryRun args.length with
    | ArgCheck.fatal msg => RunOutcome.fatalArgs msg
    | ArgCheck.ok =>
      match getFilesToUpload fs dryRun allowLargeFiles args with
      | (Except.error e, _) => RunOutcome.fatalSelect e
      | (Except.ok sel, _) => RunOutcome.dispatched sel

/-- Process exit status: `log.Fatal` exits with status 1; a run that
reaches and completes `processFiles` exits with status 0. -/
def exitCode : RunOutcome → Nat
  | RunOutcome.dispatched _ => 0
  | RunOutcome.fatalMissingToken _ => 1
  | RunOutcome.fatalArgs _ => 1
  | RunOutcome.fatalSelect _ => 1

/-! ## Dispatcher (`processFiles`, main.go lines 98-140) -/

/-- Observable actions of the dispatcher and of `LocalFile.Upload`. -/
inductive Event where
  /-- dry-run describes the file, no network I/O -/
  | describe (path : String)
  /-- the remote create-gist call for a path -/
  | remoteCall (path : String)
  deriving DecidableEq, Repr

/-- Modelled from the spec: the `file` package's `Upload` describes the file
without any network call when the file's dry-run flag is set, and performs
the remote create-gist call otherwise. The remote service is the oracle
`remote`, giving the error (if any) of the create call per file. Returns
the events performed and the error returned. -/
def LocalFile.Upload (remote : LocalFile → Option String) (f : LocalFile) :
    List Event × Option String :=
  if f.DryRun = true then
    ([Event.describe f.FilePath], none)
  else
    ([Event.remoteCall f.FilePath], remote f)

/-- The `fileStatus` record sent on the completion channel
(main.go lines 99-102). -/
structure FileStatus where
  f : LocalFile
  err : Option String
  deriving DecidableEq, Repr

/-- The Go zero value of `fileStatus`, received from a closed channel. -/
def zeroFileStatus : FileStatus :=
  { f := { FilePath := "", DryRun := false }, err := none }

/-- The statuses the N spawned goroutines send: one per file, carrying the
outcome of its `Upload` call (main.go lines 116-124). -/
def sentStatuses (remote : LocalFile → Option String)
    (filesToProcess : List LocalFile) : List FileStatus :=
  filesToProcess.map (fun f => { f := f, err := (LocalFile.Upload remote f).2 })

/-- The drain loop body (main.go lines 127-139) applied to the list of
received statuses: a nil error logs nothing; otherwise `Name()` is
computed (the oracle `nameOf` models the `file` package's fallible
display-name derivation), a failure there is itself logged and the
outcome skipped, and a success logs the create-gist error with the name. -/
def drainStatuses (nameOf : LocalFile → Except String String) :
    List FileStatus → List LogEntry
  | [] => []
  | fi :: rest =>
    match fi.err with
    | none => drainStatuses nameOf rest
    | some _ =>
      match nameOf fi.f with
      | Except.error e => LogEntry.errNameFailure e :: drainStatuses nameOf rest
      | Except.ok nm => LogEntry.errCreateGist nm :: drainStatuses nameOf rest

/-- What `processFiles` does in dry-run mode (main.go lines 104-114 and
127-139): the channel (capacity = file count) is closed before the loop,
no goroutine is spawned, each file's `Upload` runs inline (describing it),
and the drain loop's N receives all yield the zero `fileStatus`. -/
structure DryRunTrace where
  chanCapacity : Nat
  chanClosedBeforeLoop : Bool
  spawned : List LocalFile
  events : List Event
  receivedStatuses : List FileStatus
  logs : List LogEntry
  deriving DecidableEq, Repr

/-- `processFiles` in dry-run mode. -/
def processFilesDry (remote : LocalFile → Option String)
    (nameOf : LocalFile → Except String String)
    (filesToProcess : List LocalFile) : DryRunTrace :=
  let received := List.replicate filesToProcess.length zeroFileStatus
  { chanCapacity := filesToProcess.length
    chanClosedBeforeLoop := true
    spawned := []
    events := (filesToProcess.map (fun f => (LocalFile.Upload remote f).1)).flatten
    receivedStatuses := received
    logs := drainStatuses nameOf received }

/-- State of the buffered completion channel in upload mode: goroutines
that have not yet sent, the channel buffer (FIFO), and the statuses the
drain loop has received so far. -/
structure ChanState where
  pending : List FileStatus
  buffer : List FileStatus
  received : List FileStatus
  deriving DecidableEq, Repr

/-- Interleaving semantics of the upload-mode dispatcher: any pending
goroutine may send its status when the buffer has room (capacity `cap`),
and the drain loop may receive the oldest buffered status. -/
inductive ChanStep (cap : Nat) : ChanState → ChanState → Prop
  | send (l₁ l₂ : List FileStatus) (x : FileStatus) (buf rcv : List FileStatus) :
      buf.length < cap →
      ChanStep cap
        { pending := l₁ ++ x :: l₂, buffer := buf, received := rcv }
        { pending := l₁ ++ l₂, buffer := buf ++ [x], received := rcv }
  | recv (pend : List FileStatus) (x : FileStatus) (buf rcv : List FileStatus) :
      ChanStep cap
        { pending := pend, buffer := x :: buf, received := rcv }
        { pending := pend, buffer := buf, received := rcv ++ [x] }

/-- Initial dispatcher state in upload mode (main.go lines 104, 116-125):
one goroutine per file is spawned, each will send exactly one status;
nothing buffered or received yet. -/
def initChanState (remote : LocalFile → Option String)
    (filesToProcess : List LocalFile) : ChanState :=
  { pending := sentStatuses remote filesToProcess, buffer := [], received := [] }

/-- `processFiles` in upload mode, given the order `arrived` in which the
drain loop receives the statuses: one goroutine per file, channel capacity
equal to the file count, and the drain loop's error reporting over the
received statuses. -/
structure UploadTrace where
  chanCapacity : Nat
  spawned : List LocalFile
  receivedStatuses : List FileStatus
  logs : List LogEntry
  deriving DecidableEq, Repr

/-- The upload-mode dispatcher trace for a given arrival order. -/
def processFilesUpload (nameOf : LocalFile → Except String String)
    (filesToProcess : List LocalFile) (arrived : List FileStatus) : UploadTrace :=
  { chanCapacity := filesToProcess.length
    spawned := filesToProcess
    receivedStatuses := arrived
    logs := drainStatuses nameOf arrived }

/-! ## Selector lemmas -/

/-- Unfolding: a path failing the existence check is skipped with a
not-found warning. -/
theorem selectFiles_cons_missing (fs : FileSystem) (d a : Bool)
    (p : String) (rest : List String) (he : fs.pathExists p = false) :
    selectFiles fs d a (p :: rest) =
      ((selectFiles fs d a rest).1,
        LogEntry.warnNotFound p :: (selectFiles fs d a rest).2) := by
  simp [selectFiles, fileNew, he]

/-- Unfolding: an existing oversized path is skipped, with a warning
carrying the actual size, when the override is off. -/
theorem selectFiles_cons_large (fs : FileSystem) (d : Bool)
    (p : String) (rest : List String) (he : fs.pathExists p = true)
    (hsz : maxFilesize < fs.sizeOf p) :
    selectFiles fs d false (p :: rest) =
      ((selectFiles fs d false rest).1,
        LogEntry.warnTooLarge p (fs.sizeOf p) :: (selectFiles fs d false rest).2) := by
  simp [selectFiles, fileNew, he, hsz]

/-- Unfolding: an existing path within the ceiling, or any existing path
when the override is on, is kept. -/
theorem selectFiles_cons_keep (fs : FileSystem) (d a : Bool)
    (p : String) (rest : List String) (he : fs.pathExists p = true)
    (hsz : a = true ∨ fs.sizeOf p ≤ maxFilesize) :
    selectFiles fs d a (p :: rest) =
      (fileNew p d :: (selectFiles fs d a rest).1,
        (selectFiles fs d a rest).2) := by
  have h2 : ¬ (a = false ∧ maxFilesize < fs.sizeOf p) := by
    rcases hsz with h1 | h1
    · simp [h1]
    · intro hc
      omega
  simp [selectFiles, fileNew, he, h2]

/-- Case analysis on how the selector treats the head path. -/
theorem selectFiles_cons_cases (fs : FileSystem) (d a : Bool)
    (p : String) (rest : List String) :
    (fs.pathExists p = false) ∨
      (fs.pathExists p = true ∧ a = false ∧ maxFilesize < fs.sizeOf p) ∨
      (fs.pathExists p = true ∧ (a = true ∨ fs.sizeOf p ≤ maxFilesize)) := by
  by_cases he : fs.pathExists p = false
  · exact Or.inl he
  · have he2 : fs.pathExists p = true := by
      cases h : fs.pathExists p
      · exact absurd h he
      · rfl
    by_cases ha : a = true
    · exact Or.inr (Or.inr ⟨he2, Or.inl ha⟩)
    · have ha2 : a = false := by
        cases a
        · rfl
        · exact absurd rfl ha
      by_cases hsz : maxFilesize < fs.sizeOf p
      · exact Or.inr (Or.inl ⟨he2, ha2, hsz⟩)
      · exact Or.inr (Or.inr ⟨he2, Or.inr (by omega)⟩)

/-- Every file the selector keeps passed the existence check, passed the
size check whenever the override is off, and carries the dry-run flag it
was constructed with. -/
theorem selectFiles_mem (fs : FileSystem) (dryRun allowLargeFiles : Bool)
    (ps : List String) (lf : LocalFile)
    (h : lf ∈ (selectFiles fs dryRun allowLargeFiles ps).1) :
    fs.pathExists lf.FilePath = true ∧
      (allowLargeFiles = false → fs.sizeOf lf.FilePath ≤ maxFilesize) ∧
      lf.DryRun = dryRun := by
  induction ps with
  | nil => simp [selectFiles] at h
  | cons p rest ih =>
    rcases selectFiles_cons_cases fs dryRun allowLargeFiles p rest with
      he | ⟨he, ha, hsz⟩ | ⟨he, hsz⟩
    · rw [selectFiles_cons_missing fs dryRun allowLargeFiles p rest he] at h
      exact ih h
    · subst ha
      rw [selectFiles_cons_large fs dryRun p rest he hsz] at h
      exact ih h
    · rw [selectFiles_cons_keep fs dryRun allowLargeFiles p rest he hsz] at h
      rcases List.mem_cons.mp h with h1 | h1
      · subst h1
        refine ⟨he, ?_, rfl⟩
        intro ha
        rcases hsz with h2 | h2
        · rw [ha] at h2
          exact absurd h2 (by simp)
        · exact h2
      · exact ih h1

/-- The selector output is an order-preserving subsequence of the input
paths mapped through the constructor. -/
theorem selectFiles_sublist (fs : FileSystem) (dryRun allowLargeFiles : Bool)
    (ps : List String) :
    (selectFiles fs dryRun allowLargeFiles ps).1.Sublist
      (ps.map (fun p => fileNew p dryRun)) := by
  induction ps with
  | nil => simp [selectFiles]
  | cons p rest ih =>
    rcases selectFiles_cons_cases fs dryRun allowLargeFiles p rest with
      he | ⟨he, ha, hsz⟩ | ⟨he, hsz⟩
    · rw [selectFiles_cons_missing fs dryRun allowLargeFiles p rest he]
      exact ih.trans (List.sublist_cons_self _ _)
    · subst ha
      rw [selectFiles_cons_large fs dryRun p rest he hsz]
      exact ih.trans (List.sublist_cons_self _ _)
    · rw [selectFiles_cons_keep fs dryRun allowLargeFiles p rest he hsz]
      exact List.Sublist.cons₂ _ ih

/-- A path failing the existence check gets a not-found warning. -/
theorem selectFiles_warnNotFound (fs : FileSystem)
    (dryRun allowLargeFiles : Bool) (ps : List String) (p : String)
    (hp : p ∈ ps) (he : fs.pathExists p = false) :
    LogEntry.warnNotFound p ∈ (selectFiles fs dryRun allowLargeFiles ps).2 := by
  induction ps with
  | nil => simp at hp
  | cons q rest ih =>
    rcases List.mem_cons.mp hp with h | h
    · subst h
      rw [selectFiles_cons_missing fs dryRun allowLargeFiles p rest he]
      exact List.mem_cons_self _ _
    · rcases selectFiles_cons_cases fs dryRun allowLargeFiles q rest with
        hq | ⟨hq, ha, hsz⟩ | ⟨hq, hsz⟩
      · rw [selectFiles_cons_missing fs dryRun allowLargeFiles q rest hq]
        exact List.mem_cons_of_mem _ (ih h)
      · subst ha
        rw [selectFiles_cons_large fs dryRun q rest hq hsz]
        exact List.mem_cons_of_mem _ (ih h)
      · rw [selectFiles_cons_keep fs dryRun allowLargeFiles q rest hq hsz]
        exact ih h

/-- An existing path that is retained: either the override is on, or the
size is within the ceiling. -/
theorem selectFiles_included (fs : FileSystem)
    (dryRun allowLargeFiles : Bool) (ps : List String) (p : String)
    (hp : p ∈ ps) (he : fs.pathExists p = true)
    (hsz : allowLargeFiles = true ∨ fs.sizeOf p ≤ maxFilesize) :
    fileNew p dryRun ∈ (selectFiles fs dryRun allowLargeFiles ps).1 := by
  induction ps with
  | nil => simp at hp
  | cons q rest ih =>
    rcases List.mem_cons.mp hp with h | h
    · subst h
      rw [selectFiles_cons_keep fs dryRun allowLargeFiles p rest he hsz]
      exact List.mem_cons_self _ _
    · rcases selectFiles_cons_cases fs dryRun allowLargeFiles q rest with
        hq | ⟨hq, ha, hsz2⟩ | ⟨hq, hsz2⟩
      · rw [selectFiles_cons_missing fs dryRun allowLargeFiles q rest hq]
        exact ih h
      · subst ha
        rw [selectFiles_cons_large fs dryRun q rest hq hsz2]
        exact ih h
      · rw [selectFiles_cons_keep fs dryRun allowLargeFiles q rest hq hsz2]
        exact List.mem_cons_of_mem _ (ih h)

/-- An existing oversized path is warned about, with the actual size, when
the override is off. -/
theorem selectFiles_warnTooLarge (fs : FileSystem) (dryRun : Bool)
    (ps : List String) (p : String) (hp : p ∈ ps)
    (he : fs.pathExists p = true) (hsz : maxFilesize < fs.sizeOf p) :
    LogEntry.warnTooLarge p (fs.sizeOf p) ∈ (selectFiles fs dryRun false ps).2 := by
  induction ps with
  | nil => simp at hp
  | cons q rest ih =>
    rcases List.mem_cons.mp hp with h | h
    · subst h
      rw [selectFiles_cons_large fs dryRun p rest he hsz]
      exact List.mem_cons_self _ _
    · rcases selectFiles_cons_cases fs dryRun false q rest with
        hq | ⟨hq, _, hsz2⟩ | ⟨hq, hsz2⟩
      · rw [selectFiles_cons_missing fs dryRun false q rest hq]
        exact List.mem_cons_of_mem _ (ih h)
      · rw [selectFiles_cons_large fs dryRun q rest hq hsz2]
        exact List.mem_cons_of_mem _ (ih h)
      · rw [selectFiles_cons_keep fs dryRun false q rest hq hsz2]
        exact ih h

/-- With the override on, the selector never consults file sizes: its
result depends only on the existence oracle. -/
theorem selectFiles_size_not_checked (fs₁ fs₂ : FileSystem) (dryRun : Bool)
    (ps : List String) (hex : fs₁.pathExists = fs₂.pathExists) :
    selectFiles fs₁ dryRun true ps = selectFiles fs₂ dryRun true ps := by
  induction ps with
  | nil => simp [selectFiles]
  | cons p rest ih =>
    simp [selectFiles, fileNew, hex, ih]

/-! ## Channel machine lemmas -/

/-- All statuses in flight: not yet sent, buffered, or received. -/
def chanLoad (s : ChanState) : List FileStatus :=
  s.pending ++ s.buffer ++ s.received

/-- One step of the dispatcher machine permutes the statuses in flight. -/
theorem chanStep_load_perm (cap : Nat) (s t : ChanState)
    (h : ChanStep cap s t) : (chanLoad t).Perm (chanLoad s) := by
  cases h with
  | send l₁ l₂ x buf rcv hlt =>
    show (((l₁ ++ l₂) ++ (buf ++ [x])) ++ rcv).Perm
      (((l₁ ++ x :: l₂) ++ buf) ++ rcv)
    refine List.Perm.append_right rcv ?_
    have h1 : ((l₁ ++ l₂) ++ (buf ++ [x])).Perm (x :: ((l₁ ++ l₂) ++ buf)) :=
      (List.Perm.append_left (l₁ ++ l₂) (List.perm_append_singleton x buf)).trans
        (@List.perm_middle _ x (l₁ ++ l₂) buf)
    have h2 : ((l₁ ++ x :: l₂) ++ buf).Perm (x :: ((l₁ ++ l₂) ++ buf)) := by
      have := @List.perm_middle _ x l₁ (l₂ ++ buf)
      simpa [List.append_assoc] using this
    exact h1.trans h2.symm
  | recv pend x buf rcv =>
    show ((pend ++ buf) ++ (rcv ++ [x])).Perm ((pend ++ x :: buf) ++ rcv)
    have h1 : ((pend ++ buf) ++ (rcv ++ [x])).Perm (x :: ((pend ++ buf) ++ rcv)) :=
      (List.Perm.append_left (pend ++ buf) (List.perm_append_singleton x rcv)).trans
        (@List.perm_middle _ x (pend ++ buf) rcv)
    have h2 : ((pend ++ x :: buf) ++ rcv).Perm (x :: ((pend ++ buf) ++ rcv)) := by
      have := @List.perm_middle _ x pend (buf ++ rcv)
      simpa [List.append_assoc] using this
    exact h1.trans h2.symm

/-- Along any execution the statuses in flight stay a permutation of the
initial ones. -/
theorem chanReach_load_perm (cap : Nat) (s₀ s : ChanState)
    (h : Relation.ReflTransGen (ChanStep cap) s₀ s) :
    (chanLoad s).Perm (chanLoad s₀) := by
  induction h with
  | refl => exact List.Perm.refl _
  | tail _ hstep ih => exact (chanStep_load_perm cap _ _ hstep).trans ih

/-- A step only fires from a state with a pending sender or a buffered
status. -/
theorem chanStep_src_nonempty (cap : Nat) (s t : ChanState)
    (h : ChanStep cap s t) : s.pending ≠ [] ∨ s.buffer ≠ [] := by
  cases h with
  | send l₁ l₂ x buf rcv hlt => left; simp
  | recv pend x buf rcv => right; simp

/-- A receive is enabled whenever the buffer is non-empty, and a send is
enabled whenever a sender is pending and the buffer has room. -/
theorem chanStep_progress (cap : Nat) (s : ChanState) :
    (s.buffer ≠ [] → ∃ t, ChanStep cap s t) ∧
      (s.pending ≠ [] → s.buffer.length < cap → ∃ t, ChanStep cap s t) := by
  obtain ⟨pend, buf, rcv⟩ := s
  constructor
  · intro hb
    cases buf with
    | nil => exact absurd rfl hb
    | cons x rest =>
      exact ⟨{ pending := pend, buffer := rest, received := rcv ++ [x] },
        ChanStep.recv pend x rest rcv⟩
  · intro hp hlt
    cases pend with
    | nil => exact absurd rfl hp
    | cons x rest =>
      exact ⟨{ pending := rest, buffer := buf ++ [x], received := rcv },
        ChanStep.send [] rest x buf rcv hlt⟩

/-- One status is sent per spawned goroutine. -/
theorem sentStatuses_length (remote : LocalFile → Option String)
    (filesToProcess : List LocalFile) :
    (sentStatuses remote filesToProcess).length = filesToProcess.length := by
  simp [sentStatuses]

/-! ## Drain loop lemmas -/

/-- A failing outcome whose display name computes is reported with that
name. -/
theorem drainStatuses_ok_mem (nameOf : LocalFile → Except String String)
    (arr : List FileStatus) (fi : FileStatus) (e nm : String)
    (hfi : fi ∈ arr) (he : fi.err = some e) (hn : nameOf fi.f = Except.ok nm) :
    LogEntry.errCreateGist nm ∈ drainStatuses nameOf arr := by
  induction arr with
  | nil => simp at hfi
  | cons g rest ih =>
    rcases List.mem_cons.mp hfi with h | h
    · subst h
      simp [drainStatuses, he, hn]
    · cases h2 : g.err with
      | none => simpa [drainStatuses, h2] using ih h
      | some e2 =>
        cases h3 : nameOf g.f with
        | error m2 =>
          simp only [drainStatuses, h2, h3, List.mem_cons]
          exact Or.inr (ih h)
        | ok nm2 =>
          simp only [drainStatuses, h2, h3, List.mem_cons]
          exact Or.inr (ih h)

/-- A failing outcome whose display name fails to compute has the name
failure itself logged. -/
theorem drainStatuses_err_mem (nameOf : LocalFile → Except String String)
    (arr : List FileStatus) (fi : FileStatus) (e m : String)
    (hfi : fi ∈ arr) (he : fi.err = some e) (hn : nameOf fi.f = Except.error m) :
    LogEntry.errNameFailure m ∈ drainStatuses nameOf arr := by
  induction arr with
  | nil => simp at hfi
  | cons g rest ih =>
    rcases List.mem_cons.mp hfi with h | h
    · subst h
      simp [drainStatuses, he, hn]
    · cases h2 : g.err with
      | none => simpa [drainStatuses, h2] using ih h
      | some e2 =>
        cases h3 : nameOf g.f with
        | error m2 =>
          simp only [drainStatuses, h2, h3, List.mem_cons]
          exact Or.inr (ih h)
        | ok nm2 =>
          simp only [drainStatuses, h2, h3, List.mem_cons]
          exact Or.inr (ih h)

/-- The drain loop logs exactly one entry per failing outcome: failures
never abort the loop. -/
theorem drainStatuses_length (nameOf : LocalFile → Except String String)
    (arr : List FileStatus) :
    (drainStatuses nameOf arr).length =
      (arr.filter (fun fi => fi.err.isSome)).length := by
  induction arr with
  | nil => simp [drainStatuses]
  | cons g rest ih =>
    cases h2 : g.err with
    | none => simp [drainStatuses, h2, List.filter, ih]
    | some e2 =>
      cases h3 : nameOf g.f with
      | error m2 => simp [drainStatuses, h2, h3, List.filter, ih]
      | ok nm2 => simp [drainStatuses, h2, h3, List.filter, ih]

/-- Receives from the closed channel yield zero-valued statuses with nil
errors, so the dry-run drain loop logs nothing. -/
theorem drainStatuses_replicate_zero (nameOf : LocalFile → Except String String)
    (n : Nat) : drainStatuses nameOf (List.replicate n zeroFileStatus) = [] := by
  induction n with
  | zero => simp [drainStatuses]
  | succ k ih => simpa [List.replicate_succ, drainStatuses, zeroFileStatus] using ih

/-- Upload on a dry-run file only describes it. -/
theorem upload_events_dry (remote : LocalFile → Option String)
    (l : List LocalFile) (hdry : ∀ f ∈ l, f.DryRun = true) :
    (l.map (fun f => (LocalFile.Upload remote f).1)).flatten =
      l.map (fun f => Event.describe f.FilePath) := by
  induction l with
  | nil => simp
  | cons g rest ih =>
    have hg : g.DryRun = true := hdry g (List.mem_cons_self g rest)
    have hrest : ∀ f ∈ rest, f.DryRun = true :=
      fun f hf => hdry f (List.mem_cons_of_mem g hf)
    have hhead : (LocalFile.Upload remote g).1 = [Event.describe g.FilePath] := by
      simp [LocalFile.Upload, hg]
    simp [hhead, ih hrest]

/-- The list reached by `processFiles` is exactly the selector's output. -/
theorem runMain_dispatched (token : String)
    (upload dryRun allowLargeFiles : Bool) (args : List String)
    (fs : FileSystem) (sel : List LocalFile)
    (h : runMain token upload dryRun allowLargeFiles args fs =
      RunOutcome.dispatched sel) :
    sel = (selectFiles fs dryRun allowLargeFiles args).1 := by
  by_cases ht : token = ""
  · simp [runMain, ht] at h
  · rw [runMain, if_neg ht] at h
    cases hc : checkForArgumentErrors upload dryRun args.length with
    | fatal m => rw [hc] at h; simp at h
    | ok =>
      rw [hc] at h
      by_cases hz : (selectFiles fs dryRun allowLargeFiles args).1.length = 0
      · simp [getFilesToUpload, hz] at h
      · simp [getFilesToUpload, hz] at h
        exact h.symm

/-! ## Claim theorems -/

/-- Claim C1: for every input path list, a path whose existence check fails
is excluded by the selector: a not-found warning is emitted, the loop goes
on, and no file with that path appears in the returned list, hence none
reaches the dispatcher. -/
theorem selector_excludes_missing_files (fs : FileSystem)
    (dryRun allowLargeFiles : Bool) (ps : List String) (p : String)
    (hp : p ∈ ps) (he : fs.pathExists p = false) :
    LogEntry.warnNotFound p ∈ (selectFiles fs dryRun allowLargeFiles ps).2 ∧
      (∀ lf ∈ (selectFiles fs dryRun allowLargeFiles ps).1, lf.FilePath ≠ p) ∧
      (∀ token upload sel,
        runMain token upload dryRun allowLargeFiles ps fs =
          RunOutcome.dispatched sel →
        ∀ lf ∈ sel, lf.FilePath ≠ p) := by
  have hmem : ∀ lf ∈ (selectFiles fs dryRun allowLargeFiles ps).1,
      lf.FilePath ≠ p := by
    intro lf hlf heq
    have hex := (selectFiles_mem fs dryRun allowLargeFiles ps lf hlf).1
    rw [heq, he] at hex
    exact Bool.false_ne_true hex
  refine ⟨selectFiles_warnNotFound fs dryRun allowLargeFiles ps p hp he, hmem, ?_⟩
  intro token upload sel hrun
  have hsel := runMain_dispatched token upload dryRun allowLargeFiles ps fs sel hrun
  subst hsel
  exact hmem

/-- A filesystem on which no path exists. -/
def fsNone : FileSystem :=
  { pathExists := fun _ => false, sizeOf := fun _ => 0 }

/-- Witness for C1 on the concrete input ["missing.txt"]. -/
theorem selector_excludes_missing_files_witness :
    "missing.txt" ∈ ["missing.txt"] ∧
      fsNone.pathExists "missing.txt" = false ∧
      LogEntry.warnNotFound "missing.txt" ∈
        (selectFiles fsNone false false ["missing.txt"]).2 :=
  ⟨by simp, rfl,
    (selector_excludes_missing_files fsNone false false ["missing.txt"]
      "missing.txt" (by simp) rfl).1⟩

/-- Claim C2: for an existing file over the 50 KB ceiling, with the
override off the file is excluded and a warning carrying the actual size
is emitted; with the override on the same file is included and file sizes
are never consulted. -/
theorem selector_size_ceiling_policy (fs : FileSystem) (dryRun : Bool)
    (ps : List String) (p : String) (hp : p ∈ ps)
    (he : fs.pathExists p = true) (hsz : maxFilesize < fs.sizeOf p) :
    maxFilesize = 50 * 1024 ∧
      LogEntry.warnTooLarge p (fs.sizeOf p) ∈ (selectFiles fs dryRun false ps).2 ∧
      (∀ lf ∈ (selectFiles fs dryRun false ps).1, lf.FilePath ≠ p) ∧
      fileNew p dryRun ∈ (selectFiles fs dryRun true ps).1 ∧
      (∀ fs₂ : FileSystem, fs₂.pathExists = fs.pathExists →
        selectFiles fs₂ dryRun true ps = selectFiles fs dryRun true ps) := by
  refine ⟨by decide, selectFiles_warnTooLarge fs dryRun ps p hp he hsz, ?_,
    selectFiles_included fs dryRun true ps p hp he (Or.inl rfl),
    fun fs₂ hex => selectFiles_size_not_checked fs₂ fs dryRun ps hex⟩
  intro lf hlf heq
  have hle := (selectFiles_mem fs dryRun false ps lf hlf).2.1 rfl
  rw [heq] at hle
  omega

/-- A filesystem where every path exists with size 100 KB. -/
def fsBig : FileSystem :=
  { pathExists := fun _ => true, sizeOf := fun _ => 102400 }

/-- Witness for C2 on the concrete input ["big.bin"]. -/
theorem selector_size_ceiling_policy_witness :
    "big.bin" ∈ ["big.bin"] ∧
      fsBig.pathExists "big.bin" = true ∧
      maxFilesize < fsBig.sizeOf "big.bin" ∧
      LogEntry.warnTooLarge "big.bin" (fsBig.sizeOf "big.bin") ∈
        (selectFiles fsBig false false ["big.bin"]).2 ∧
      fileNew "big.bin" false ∈ (selectFiles fsBig false true ["big.bin"]).1 :=
  ⟨by simp, rfl, by decide,
    (selector_size_ceiling_policy fsBig false ["big.bin"] "big.bin"
      (by simp) rfl (by decide)).2.1,
    (selector_size_ceiling_policy fsBig false ["big.bin"] "big.bin"
      (by simp) rfl (by decide)).2.2.2.1⟩

/-- Claim C3: an empty filtered list makes `getFilesToUpload` return the
"go-gist: no files to upload" error, the run ends fatally in main, and the
dispatcher is never invoked. -/
theorem empty_selection_fatal_no_dispatch (fs : FileSystem) (token : String)
    (upload dryRun allowLargeFiles : Bool) (args : List String)
    (hsel : (selectFiles fs dryRun allowLargeFiles args).1 = []) :
    (getFilesToUpload fs dryRun allowLargeFiles args).1 =
        Except.error "go-gist: no files to upload" ∧
      (token ≠ "" →
        checkForArgumentErrors upload dryRun args.length = ArgCheck.ok →
        runMain token upload dryRun allowLargeFiles args fs =
            RunOutcome.fatalSelect "go-gist: no files to upload" ∧
          ∀ sel, runMain token upload dryRun allowLargeFiles args fs ≠
            RunOutcome.dispatched sel) := by
  have hget : (getFilesToUpload fs dryRun allowLargeFiles args).1 =
      Except.error "go-gist: no files to upload" := by
    simp [getFilesToUpload, hsel]
  refine ⟨hget, ?_⟩
  intro ht hchk
  have hrun : runMain token upload dryRun allowLargeFiles args fs =
      RunOutcome.fatalSelect "go-gist: no files to upload" := by
    simp [runMain, ht, hchk, getFilesToUpload, hsel]
  exact ⟨hrun, fun sel h => by rw [hrun] at h; exact RunOutcome.noConfusion h⟩

/-- Witness for C3: one input path that does not exist, dry-run mode. -/
theorem empty_selection_fatal_no_dispatch_witness :
    (selectFiles fsNone true false ["x"]).1 = [] ∧
      ("t" : String) ≠ "" ∧
      checkForArgumentErrors false true ["x"].length = ArgCheck.ok ∧
      runMain "t" false true false ["x"] fsNone =
        RunOutcome.fatalSelect "go-gist: no files to upload" :=
  ⟨rfl, by decide, rfl,
    ((empty_selection_fatal_no_dispatch fsNone "t" false true false ["x"]
      rfl).2 (by decide) rfl).1⟩

/-- Claim C4: in upload mode one task is spawned per file, the completion
channel is buffered to the file count so a sender is never blocked, and at
the end of any execution the drain loop has collected exactly N outcomes —
a permutation of the N sent statuses — whatever the arrival order. -/
theorem upload_dispatcher_collects_all_outcomes
    (remote : LocalFile → Option String) (filesToProcess : List LocalFile)
    (s : ChanState)
    (hreach : Relation.ReflTransGen (ChanStep filesToProcess.length)
      (initChanState remote filesToProcess) s) :
    (initChanState remote filesToProcess).pending.length =
        filesToProcess.length ∧
      (s.pending ≠ [] → s.buffer.length < filesToProcess.length) ∧
      ((∀ t, ¬ ChanStep filesToProcess.length s t) →
        s.received.Perm (sentStatuses remote filesToProcess) ∧
          s.received.length = filesToProcess.length ∧
          s.pending = [] ∧ s.buffer = []) := by
  have hperm := chanReach_load_perm filesToProcess.length _ s hreach
  have hload : chanLoad (initChanState remote filesToProcess) =
      sentStatuses remote filesToProcess := by
    simp [chanLoad, initChanState]
  rw [hload] at hperm
  have hlen : s.pending.length + s.buffer.length + s.received.length =
      filesToProcess.length := by
    have h1 := hperm.length_eq
    have h2 := sentStatuses_length remote filesToProcess
    simp [chanLoad] at h1
    omega
  refine ⟨by simp [initChanState, sentStatuses], ?_, ?_⟩
  · intro hpne
    have h0 : 0 < s.pending.length := List.length_pos.mpr hpne
    omega
  · intro hstuck
    have hbuf : s.buffer = [] := by
      by_contra hb
      obtain ⟨t, ht⟩ := (chanStep_progress filesToProcess.length s).1 hb
      exact hstuck t ht
    have hpend : s.pending = [] := by
      by_contra hpne
      have h0 : 0 < s.pending.length := List.length_pos.mpr hpne
      obtain ⟨t, ht⟩ := (chanStep_progress filesToProcess.length s).2 hpne
        (by rw [hbuf]; simpa using by omega)
      exact hstuck t ht
    have hr : s.received.Perm (sentStatuses remote filesToProcess) := by
      have hh := hperm
      rw [chanLoad, hpend, hbuf] at hh
      simpa using hh
    refine ⟨hr, ?_, hpend, hbuf⟩
    have h1 := hr.length_eq
    have h2 := sentStatuses_length remote filesToProcess
    omega

/-- The single file of the C4 witness run. -/
def wFile : LocalFile := { FilePath := "a.txt", DryRun := false }

/-- The status its goroutine sends when the remote call succeeds. -/
def wStatus : FileStatus := { f := wFile, err := none }

/-- Witness for C4: the two-step execution send-then-receive on one file,
ending stuck with exactly that one outcome collected. -/
theorem upload_dispatcher_collects_all_outcomes_witness :
    ({ pending := [], buffer := [], received := [wStatus] } :
        ChanState).received.Perm (sentStatuses (fun _ => none) [wFile]) ∧
      ({ pending := [], buffer := [], received := [wStatus] } :
        ChanState).received.length = [wFile].length := by
  have hreach : Relation.ReflTransGen (ChanStep [wFile].length)
      (initChanState (fun _ => none) [wFile])
      { pending := [], buffer := [], received := [wStatus] } := by
    have h1 : ChanStep [wFile].length (initChanState (fun _ => none) [wFile])
        { pending := [], buffer := [wStatus], received := [] } :=
      ChanStep.send [] [] wStatus [] [] (by decide)
    have h2 : ChanStep [wFile].length
        { pending := [], buffer := [wStatus], received := [] }
        { pending := [], buffer := [], received := [wStatus] } :=
      ChanStep.recv [] wStatus [] []
    exact Relation.ReflTransGen.head h1 (Relation.ReflTransGen.single h2)
  have hstuck : ∀ t, ¬ ChanStep [wFile].length
      { pending := [], buffer := [], received := [wStatus] } t := by
    intro t ht
    rcases chanStep_src_nonempty [wFile].length _ t ht with h | h
    · exact h rfl
    · exact h rfl
  have hc := (upload_dispatcher_collects_all_outcomes (fun _ => none) [wFile]
    { pending := [], buffer := [], received := [wStatus] } hreach).2.2 hstuck
  exact ⟨hc.1, hc.2.1⟩

/-- Claim C5: in dry-run mode no upload task is spawned and no remote call
occurs: the channel is closed before the loop, each file is only
described, and the drain loop collects no outcome (it logs nothing). -/
theorem dryrun_no_tasks_no_remote_calls (remote : LocalFile → Option String)
    (nameOf : LocalFile → Except String String)
    (filesToProcess : List LocalFile)
    (hdry : ∀ f ∈ filesToProcess, f.DryRun = true) :
    (processFilesDry remote nameOf filesToProcess).spawned = [] ∧
      (processFilesDry remote nameOf filesToProcess).chanClosedBeforeLoop = true ∧
      (processFilesDry remote nameOf filesToProcess).events =
        filesToProcess.map (fun f => Event.describe f.FilePath) ∧
      (∀ p, Event.remoteCall p ∉
        (processFilesDry remote nameOf filesToProcess).events) ∧
      (processFilesDry remote nameOf filesToProcess).logs = [] := by
  have hev : (processFilesDry remote nameOf filesToProcess).events =
      filesToProcess.map (fun f => Event.describe f.FilePath) := by
    show (filesToProcess.map (fun f => (LocalFile.Upload remote f).1)).flatten = _
    exact upload_events_dry remote filesToProcess hdry
  refine ⟨rfl, rfl, hev, ?_, ?_⟩
  · intro p hmem
    rw [hev] at hmem
    simp at hmem
  · show drainStatuses nameOf (List.replicate filesToProcess.length zeroFileStatus) = []
    exact drainStatuses_replicate_zero nameOf filesToProcess.length

/-- The single dry-run file of the C5 witness. -/
def wDryFile : LocalFile := { FilePath := "a.txt", DryRun := true }

/-- Witness for C5 on the one-file dry-run batch. -/
theorem dryrun_no_tasks_no_remote_calls_witness :
    (∀ f ∈ [wDryFile], f.DryRun = true) ∧
      (processFilesDry (fun _ => none) (fun f => Except.ok f.FilePath)
        [wDryFile]).spawned = [] ∧
      (processFilesDry (fun _ => none) (fun f => Except.ok f.FilePath)
        [wDryFile]).logs = [] := by
  have h := dryrun_no_tasks_no_remote_calls (fun _ => none)
    (fun f => Except.ok f.FilePath) [wDryFile]
    (by intro f hf; simp at hf; rw [hf]; rfl)
  exact ⟨by intro f hf; simp at hf; rw [hf]; rfl, h.1, h.2.2.2.2⟩

/-- Claim C6: argument validation is fatal when neither mode is set
("Nothing to do"), when both are set, and when upload mode has zero
positional arguments; each such fatal happens in `runMain` before any
filesystem access (the outcome is the same for every filesystem). -/
theorem argument_validation_invariant (u d a : Bool) (token : String)
    (n : Nat) (args : List String) (fs : FileSystem) :
    checkForArgumentErrors false false n = ArgCheck.fatal "Nothing to do" ∧
      checkForArgumentErrors true true n =
        ArgCheck.fatal "Can't upload and dryrun at the same time" ∧
      checkForArgumentErrors true false 0 =
        ArgCheck.fatal "Selected -upload with no files" ∧
      (∀ d2 : Bool, ∃ m, checkForArgumentErrors true d2 0 = ArgCheck.fatal m) ∧
      (∀ m, token ≠ "" →
        checkForArgumentErrors u d args.length = ArgCheck.fatal m →
        runMain token u d a args fs = RunOutcome.fatalArgs m) := by
  refine ⟨by simp [checkForArgumentErrors], by simp [checkForArgumentErrors],
    by simp [checkForArgumentErrors], ?_, ?_⟩
  · intro d2
    cases d2
    · exact ⟨"Selected -upload with no files", by simp [checkForArgumentErrors]⟩
    · exact ⟨"Can't upload and dryrun at the same time",
        by simp [checkForArgumentErrors]⟩
  · intro m ht hchk
    simp [runMain, ht, hchk]

/-- Witness for C6: both flags set, concrete token and filesystem. -/
theorem argument_validation_invariant_witness :
    ("t" : String) ≠ "" ∧
      checkForArgumentErrors true true ["a.txt"].length =
        ArgCheck.fatal "Can't upload and dryrun at the same time" ∧
      runMain "t" true true false ["a.txt"] fsNone =
        RunOutcome.fatalArgs "Can't upload and dryrun at the same time" := by
  have h := argument_validation_invariant true true false "t" 1 ["a.txt"] fsNone
  exact ⟨by decide, h.2.1, h.2.2.2.2 _ (by decide) h.2.1⟩

/-- Claim C7: per-file upload failure is non-fatal: every failing outcome
in the drained batch is logged (with the display name, or the name error
itself when that computation fails, skipping that outcome), the loop
drains the whole batch — exactly one log entry per failing outcome — and
a run that reached the dispatcher still exits with status 0. -/
theorem per_file_failure_nonfatal (nameOf : LocalFile → Except String String)
    (remote : LocalFile → Option String) (filesToProcess : List LocalFile)
    (arrived : List FileStatus)
    (hperm : arrived.Perm (sentStatuses remote filesToProcess)) :
    (∀ fi ∈ arrived, ∀ e, fi.err = some e →
      (∀ nm, nameOf fi.f = Except.ok nm →
        LogEntry.errCreateGist nm ∈
          (processFilesUpload nameOf filesToProcess arrived).logs) ∧
      (∀ m, nameOf fi.f = Except.error m →
        LogEntry.errNameFailure m ∈
          (processFilesUpload nameOf filesToProcess arrived).logs)) ∧
      (processFilesUpload nameOf filesToProcess arrived).logs.length =
        (arrived.filter (fun fi => fi.err.isSome)).length ∧
      exitCode (RunOutcome.dispatched filesToProcess) = 0 := by
  refine ⟨?_, drainStatuses_length nameOf arrived, rfl⟩
  intro fi hfi e he
  constructor
  · intro nm hn
    exact drainStatuses_ok_mem nameOf arrived fi e nm hfi he hn
  · intro m hn
    exact drainStatuses_err_mem nameOf arrived fi e m hfi he hn

/-- The failing status of the C7 witness: the remote call errors. -/
def wFailStatus : FileStatus := { f := wFile, err := some "boom" }

/-- Witness for C7: a one-file batch whose upload fails; the failure is
logged by display name and the exit status is unchanged. -/
theorem per_file_failure_nonfatal_witness :
    [wFailStatus].Perm (sentStatuses (fun _ => some "boom") [wFile]) ∧
      wFailStatus ∈ [wFailStatus] ∧
      wFailStatus.err = some "boom" ∧
      LogEntry.errCreateGist "a.txt" ∈
        (processFilesUpload (fun f => Except.ok f.FilePath) [wFile]
          [wFailStatus]).logs ∧
      exitCode (RunOutcome.dispatched [wFile]) = 0 := by
  have hperm : [wFailStatus].Perm (sentStatuses (fun _ => some "boom") [wFile]) :=
    List.Perm.refl _
  have h := per_file_failure_nonfatal (fun f => Except.ok f.FilePath)
    (fun _ => some "boom") [wFile] [wFailStatus] hperm
  refine ⟨hperm, by simp, rfl, ?_, h.2.2⟩
  exact (h.1 wFailStatus (by simp) "boom" rfl).1 "a.txt" rfl

/-- Claim C8: an absent or empty GITHUB_API_TOKEN ends the process fatally
at startup, before argument validation (whatever the flags and arguments)
and before any filesystem access (whatever the filesystem), with exit
status 1. -/
theorem missing_token_fatal_at_startup (u d a : Bool) (args : List String)
    (fs : FileSystem) :
    runMain "" u d a args fs =
        RunOutcome.fatalMissingToken
          "Environment variable required but missing: GITHUB_API_TOKEN" ∧
      exitCode (runMain "" u d a args fs) = 1 := by
  constructor
  · simp [runMain]
  · simp [runMain, exitCode]

/-- Claim C9: the selector's output is an order-preserving subsequence of
the input paths each turned into the descriptor built from it, and every
kept descriptor still carries its exact input path and the dry-run flag
it was constructed with. -/
theorem selector_output_subsequence (fs : FileSystem)
    (dryRun allowLargeFiles : Bool) (ps : List String) :
    (selectFiles fs dryRun allowLargeFiles ps).1.Sublist
        (ps.map (fun p => fileNew p dryRun)) ∧
      ∀ lf ∈ (selectFiles fs dryRun allowLargeFiles ps).1,
        lf.DryRun = dryRun ∧ lf.FilePath ∈ ps := by
  refine ⟨selectFiles_sublist fs dryRun allowLargeFiles ps, ?_⟩
  intro lf hlf
  have h1 := (selectFiles_mem fs dryRun allowLargeFiles ps lf hlf).2.2
  have h2 : lf ∈ ps.map (fun p => fileNew p dryRun) :=
    (selectFiles_sublist fs dryRun allowLargeFiles ps).subset hlf
  rcases List.mem_map.mp h2 with ⟨p, hpin, hpe⟩
  refine ⟨h1, ?_⟩
  rw [← hpe]
  simpa [fileNew] using hpin

/-- A filesystem where every path exists with size 1 KB. -/
def fsSmall : FileSystem :=
  { pathExists := fun _ => true, sizeOf := fun _ => 1024 }

/-- Witness for C9 on a two-path input, everything kept. -/
theorem selector_output_subsequence_witness :
    (selectFiles fsSmall true false ["a.txt", "b.txt"]).1.Sublist
        (["a.txt", "b.txt"].map (fun p => fileNew p true)) ∧
      ∀ lf ∈ (selectFiles fsSmall true false ["a.txt", "b.txt"]).1,
        lf.DryRun = true ∧ lf.FilePath ∈ ["a.txt", "b.txt"] :=
  selector_output_subsequence fsSmall true false ["a.txt", "b.txt"]

/-- Claim C10: dry-run with zero positional arguments passes argument
validation, but the selector's empty result still ends the run fatally
with the "no files to upload" error before the dispatcher runs. -/
theorem dryrun_no_args_fatal_no_files (token : String)
    (allowLargeFiles : Bool) (fs : FileSystem) (ht : token ≠ "") :
    checkForArgumentErrors false true 0 = ArgCheck.ok ∧
      runMain token false true allowLargeFiles [] fs =
        RunOutcome.fatalSelect "go-gist: no files to upload" ∧
      ∀ sel, runMain token false true allowLargeFiles [] fs ≠
        RunOutcome.dispatched sel := by
  have hchk : checkForArgumentErrors false true 0 = ArgCheck.ok := by
    simp [checkForArgumentErrors]
  have hrun : runMain token false true allowLargeFiles [] fs =
      RunOutcome.fatalSelect "go-gist: no files to upload" := by
    simp [runMain, ht, checkForArgumentErrors, getFilesToUpload, selectFiles]
  exact ⟨hchk, hrun, fun sel h => by rw [hrun] at h; exact RunOutcome.noConfusion h⟩

/-- Witness for C10 at a concrete token and filesystem. -/
theorem dryrun_no_args_fatal_no_files_witness :
    ("t" : String) ≠ "" ∧
      checkForArgumentErrors false true 0 = ArgCheck.ok ∧
      runMain "t" false true false [] fsNone =
        RunOutcome.fatalSelect "go-gist: no files to upload" := by
  have h := dryrun_no_args_fatal_no_files "t" false fsNone (by decide)
  exact ⟨by decide, h.1, h.2.1⟩

end GoGist
